import Mathlib

/-!
Verification of `GenerateIcons/generate.py` from furankuhanma/audify.

The script is a straight-line icon generator: at module load it creates the
output directory if absent; `generate_icons` opens one source image inside a
`with` block, and for each size in a fixed list resizes it with Lanczos
resampling, saves it as `icon-<s>x<s>.png`, and prints a success line; the
single `except FileNotFoundError` clause converts a missing-file error into a
printed diagnostic.

We embed the script over an explicit filesystem/world state.  Python
exceptions are modelled by `Except (PyError × World)`: a raised error carries
the world at the raise point, because side effects performed before the raise
persist.  The Lanczos resampler and the PNG encoder live in the PIL library,
outside this repository; they are modelled as deterministic functions whose
pixel payload is abstract — the theorems use only their determinism and the
dimensions/format they produce, never concrete pixel values.
-/

namespace Audify

/-- Image formats the modelled decoding library distinguishes. -/
inductive ImgFormat where
  | png
  | jpeg
  | bmp
deriving DecidableEq, Repr

/-- A decoded raster image: pixel dimensions plus abstract pixel payload. -/
structure ImageData where
  width : Nat
  height : Nat
  pixels : List Nat
deriving DecidableEq, Repr

/-- Contents of a file on disk: an encoded image (format plus the decoded
data it round-trips to, standing for its bytes), or undecodable bytes. -/
inductive FileData where
  | image (fmt : ImgFormat) (img : ImageData)
  | corrupt (bytes : List Nat)
deriving DecidableEq, Repr

/-- The Python exception kinds relevant to the script.  Only
`fileNotFound` is `FileNotFoundError`; the rest are other exception types
(`FileExistsError`, `PermissionError`, `OSError ENOSPC`,
`PIL.UnidentifiedImageError`). -/
inductive PyError where
  | fileNotFound (path : String)
  | fileExists (path : String)
  | permissionError (path : String)
  | diskFull (path : String)
  | codecError (path : String)
deriving DecidableEq, Repr

/-- Filesystem state: existing directories, files (an association list from
path to contents), paths the OS refuses to write (permission), and a
disk-full flag. -/
structure FS where
  dirs : List String
  files : List (String × FileData)
  unwritable : List String
  full : Bool
deriving DecidableEq, Repr

/-- First binding of a path in a file association list. -/
def lookupIn : List (String × FileData) → String → Option FileData
  | [], _ => none
  | q :: rest, p => if q.1 == p then some q.2 else lookupIn rest p

def FS.lookup (fs : FS) (p : String) : Option FileData :=
  lookupIn fs.files p

/-- Write `d` at path `p`: overwrite the existing binding or append a new
one. -/
def setFile (files : List (String × FileData)) (p : String) (d : FileData) :
    List (String × FileData) :=
  match files with
  | [] => [(p, d)]
  | q :: rest => if q.1 == p then (p, d) :: rest else q :: setFile rest p d

/-- Python os.path.exists: true for an existing directory or an existing file. -/
def osPathExists (fs : FS) (p : String) : Bool :=
  fs.dirs.contains p || (fs.lookup p).isSome

/-- Split a character list at `'/'` separators, accumulating the current
component in reverse. -/
def splitPathAux : List Char → List Char → List String
  | [], acc => [String.mk acc.reverse]
  | c :: rest, acc =>
    if c = '/' then String.mk acc.reverse :: splitPathAux rest []
    else splitPathAux rest (c :: acc)

/-- The `'/'`-separated components of a path. -/
def splitPath (p : String) : List String :=
  splitPathAux p.data []

/-- Join components with `'/'`. -/
def joinPath : List String → String
  | [] => ""
  | [x] => x
  | x :: y :: xs => x ++ "/" ++ joinPath (y :: xs)

/-- All ancestor paths of `p` including `p` itself, e.g.
`"public/icons"` gives `["public", "public/icons"]`. -/
def pathAncestors (p : String) : List String :=
  (List.range (splitPath p).length).map
    (fun i => joinPath ((splitPath p).take (i + 1)))

/-- Python os.makedirs (without exist_ok): raises FileExistsError when `p`
already exists, otherwise creates `p` and every missing intermediate
directory. -/
def os_makedirs (fs : FS) (p : String) : Except PyError FS :=
  if osPathExists fs p then .error (.fileExists p)
  else .ok { fs with
    dirs := fs.dirs ++ (pathAncestors p).filter (fun d => !fs.dirs.contains d) }

/-- The configured source path constant of the script. -/
def source_file : String := "GenerateIcons/master-icon.png"

/-- The configured output directory constant of the script. -/
def output_dir : String := "public/icons"

/-- The fixed target size list of the script. -/
def sizes : List Nat := [72, 96, 128, 144, 152, 192, 384, 512]

/-- Module-load step: `if not os.path.exists(output_dir): os.makedirs(output_dir)`. -/
def startup (fs : FS) : Except PyError FS :=
  if osPathExists fs output_dir then .ok fs
  else os_makedirs fs output_dir

/-- Modelled from the spec: Lanczos resampling is PIL library code, not part
of this repository.  The contract used here is the spec's: the resampled
pixel payload is a deterministic function of the source image and the target
dimensions.  Concrete pixel values are abstracted (no theorem inspects
them). -/
def lanczosPixels (img : ImageData) (w h : Nat) : List Nat :=
  w :: h :: img.width :: img.height :: img.pixels

/-- PIL resize with the LANCZOS filter: a new image of exactly
the requested dimensions, pixel data resampled from the source. -/
def ImageData.resize (img : ImageData) (w h : Nat) : ImageData :=
  { width := w, height := h, pixels := lanczosPixels img w h }

/-- PIL open: FileNotFoundError when no file is at `p`, a codec
error (`UnidentifiedImageError`) when the file is present but undecodable,
otherwise the decoded image and its source format. -/
def pilOpen (fs : FS) (p : String) : Except PyError (ImgFormat × ImageData) :=
  match fs.lookup p with
  | none => .error (.fileNotFound p)
  | some (.image fmt img) => .ok (fmt, img)
  | some (.corrupt _) => .error (.codecError p)

/-- Parent directory of a path, e.g. `"public/icons/a.png"` gives
`"public/icons"`. -/
def dirOf (p : String) : String :=
  joinPath (splitPath p).dropLast

/-- Does `p` end with extension `ext`? -/
def endsWithExt (p ext : String) : Bool :=
  p.data.reverse.take ext.data.length == ext.data.reverse

/-- PIL chooses the encoder from the filename extension. -/
def extFormat (p : String) : ImgFormat :=
  if endsWithExt p ".png" then .png
  else if endsWithExt p ".jpg" then .jpeg
  else .bmp

/-- PIL save at path `p`: FileNotFoundError when the parent directory is missing,
`PermissionError` when the OS refuses the write, `OSError` when the disk is
full, otherwise write the image encoded per the extension, overwriting any
existing file. -/
def pilSave (fs : FS) (img : ImageData) (p : String) : Except PyError FS :=
  if !(fs.dirs.contains (dirOf p)) then .error (.fileNotFound p)
  else if fs.unwritable.contains p then .error (.permissionError p)
  else if fs.full then .error (.diskFull p)
  else .ok { fs with files := setFile fs.files p (.image (extFormat p) img) }

/-- Observable steps of one loop iteration, in program order. -/
inductive Event where
  | resized (s : Nat)
  | saved (s : Nat)
  | printed (s : Nat)
deriving DecidableEq, Repr

/-- Program state: the filesystem, the console lines printed so far, the
event trace, and the image resources currently held open. -/
structure World where
  fs : FS
  output : List String
  events : List Event
  openHandles : List String
deriving DecidableEq, Repr

/-- The output path for a size: the output directory followed by the icon-SxS.png filename. -/
def iconPath (size : Nat) : String :=
  output_dir ++ "/icon-" ++ toString size ++ "x" ++ toString size ++ ".png"

/-- The success line printed after each save. -/
def successMsg (size : Nat) : String :=
  "✅ Created: " ++ iconPath size

/-- The diagnostic printed by the `except FileNotFoundError` handler. -/
def errorMsg (source_path : String) : String :=
  "❌ Error: Could not find " ++ source_path ++ ". Check your folder names!"

/-- One iteration of the `for size in sizes` body: resize, save, print.
The resize is pure, so a save error carries the world with only the
`resized` event recorded; success records resize, save and print in
program order and appends the printed line after the file is written. -/
def processSize (img : ImageData) (w : World) (size : Nat) :
    Except (PyError × World) World :=
  let resized_img := img.resize size size
  match pilSave w.fs resized_img (iconPath size) with
  | .error e => .error (e, { w with events := w.events ++ [Event.resized size] })
  | .ok fs' =>
    .ok { w with
      fs := fs',
      output := w.output ++ [successMsg size],
      events := w.events ++ [Event.resized size, Event.saved size, Event.printed size] }

/-- The `for size in sizes` loop. -/
def processSizes (img : ImageData) (w : World) :
    List Nat → Except (PyError × World) World
  | [] => .ok w
  | s :: rest =>
    match processSize img w s with
    | .error e => .error e
    | .ok w' => processSizes img w' rest

/-- The operation generate_icons(source_path): a try block holding the
with-scoped open and the loop, and an except clause.  The with block releases the
image handle on both the normal and the exceptional exit; the handler
catches `FileNotFoundError` raised anywhere in the block and prints a line
naming `source_path`. -/
def generate_icons (source_path : String) (w : World) :
    Except (PyError × World) World :=
  let attempt : Except (PyError × World) World :=
    match pilOpen w.fs source_path with
    | .error e => .error (e, w)
    | .ok (_, img) =>
      let wAcq : World := { w with openHandles := w.openHandles ++ [source_path] }
      match processSizes img wAcq sizes with
      | .ok w' => .ok { w' with openHandles := w'.openHandles.erase source_path }
      | .error (e, w') =>
        .error (e, { w' with openHandles := w'.openHandles.erase source_path })
  match attempt with
  | .ok w' => .ok w'
  | .error (PyError.fileNotFound _, w') =>
    .ok { w' with output := w'.output ++ [errorMsg source_path] }
  | .error e => .error e

/-- The world an execution ends in, whether it returned or raised. -/
def resultWorld : Except (PyError × World) World → World
  | .ok w => w
  | .error (_, w) => w

/-- The whole program: module-load directory creation, then
`generate_icons(source_file)` under `if __name__ == "__main__"`. -/
def mainProgram (w : World) : Except (PyError × World) World :=
  match startup w.fs with
  | .error e => .error (e, w)
  | .ok fs' => generate_icons source_file { w with fs := fs' }

/-- Specification-level description of the filesystem after the loop has
saved every size in `l`, in order. -/
def writeAll (img : ImageData) : FS → List Nat → FS
  | fs, [] => fs
  | fs, s :: rest =>
    writeAll img
      { fs with
        files := setFile fs.files (iconPath s)
                   (.image (extFormat (iconPath s)) (img.resize s s)) }
      rest

/-- The event trace of a fault-free loop over `l`: for each size, in list
order, a resize, then a save, then a printed notice. -/
def successTrace : List Nat → List Event
  | [] => []
  | s :: rest => .resized s :: .saved s :: .printed s :: successTrace rest

/-! ### Concrete worlds used to instantiate the theorems -/

/-- An 800 × 600 (non-square) sample image. -/
def sampleImg : ImageData := { width := 800, height := 600, pixels := [7, 7, 7] }

/-- A bare filesystem: nothing on disk at all. -/
def emptyFS : FS := { dirs := [], files := [], unwritable := [], full := false }

def emptyWorld : World :=
  { fs := emptyFS, output := [], events := [], openHandles := [] }

/-- Output directory present, source image present as a JPEG. -/
def readyFS : FS :=
  { dirs := ["public", "public/icons"],
    files := [(source_file, .image .jpeg sampleImg)],
    unwritable := [], full := false }

def sampleWorld : World :=
  { fs := readyFS, output := [], events := [], openHandles := [] }

/-- Same but the source is a bitmap. -/
def bmpWorld : World :=
  { sampleWorld with fs := { readyFS with files := [(source_file, .image .bmp sampleImg)] } }

/-- A present but undecodable source file. -/
def corruptWorld : World :=
  { emptyWorld with fs := { emptyFS with files := [("c.png", .corrupt [9])] } }

/-- Output directory present but the OS refuses every write into it. -/
def lockedWorld : World :=
  { sampleWorld with fs := { readyFS with unwritable := sizes.map iconPath } }

/-- Output directory present but the disk is full. -/
def fullWorld : World :=
  { sampleWorld with fs := { readyFS with full := true } }

/-- Writes succeed for 72 and 96 but the 128 write is refused. -/
def midFailWorld : World :=
  { sampleWorld with fs := { readyFS with unwritable := [iconPath 128] } }

/-! ### Association-list lemmas -/

theorem lookupIn_setFile_self (files : List (String × FileData)) (p : String)
    (d : FileData) : lookupIn (setFile files p d) p = some d := by
  induction files with
  | nil => simp [setFile, lookupIn]
  | cons q rest ih =>
    by_cases h : q.1 = p
    · simp [setFile, lookupIn, h]
    · simp [setFile, lookupIn, h, ih]

theorem lookupIn_setFile_ne (files : List (String × FileData)) (p q : String)
    (d : FileData) (h : q ≠ p) :
    lookupIn (setFile files p d) q = lookupIn files q := by
  induction files with
  | nil => simp [setFile, lookupIn, Ne.symm h]
  | cons r rest ih =>
    by_cases hr : r.1 = p
    · simp [setFile, lookupIn, hr, Ne.symm h]
    · simp [setFile, lookupIn, hr, ih]

theorem setFile_of_lookupIn (files : List (String × FileData)) (p : String)
    (d : FileData) (h : lookupIn files p = some d) : setFile files p d = files := by
  induction files with
  | nil => simp [lookupIn] at h
  | cons q rest ih =>
    obtain ⟨q1, q2⟩ := q
    by_cases hq : q1 = p
    · simp [lookupIn, hq] at h
      simp [setFile, hq, h]
    · simp [lookupIn, hq] at h
      simp [setFile, hq, ih h]

theorem lookupIn_setFile_isSome (files : List (String × FileData)) (p q : String)
    (d : FileData) (h : (lookupIn files q).isSome) :
    (lookupIn (setFile files p d) q).isSome := by
  by_cases hpq : q = p
  · subst hpq; simp [lookupIn_setFile_self]
  · rw [lookupIn_setFile_ne files p q d hpq]; exact h

/-! ### `pilSave` lemmas -/

theorem pilSave_ok (fs : FS) (img : ImageData) (p : String)
    (hd : dirOf p ∈ fs.dirs) (hw : p ∉ fs.unwritable) (hf : fs.full = false) :
    pilSave fs img p =
      .ok { fs with files := setFile fs.files p (.image (extFormat p) img) } := by
  simp [pilSave, hd, hw, hf]

theorem pilSave_ok_inv (fs : FS) (img : ImageData) (p : String) (fs' : FS)
    (h : pilSave fs img p = .ok fs') :
    fs'.dirs = fs.dirs ∧ fs'.unwritable = fs.unwritable ∧ fs'.full = fs.full ∧
      ∀ q, (lookupIn fs.files q).isSome → (lookupIn fs'.files q).isSome := by
  unfold pilSave at h
  split at h
  · cases h
  · split at h
    · cases h
    · split at h
      · cases h
      · cases h
        refine ⟨rfl, rfl, rfl, ?_⟩
        intro q hq
        exact lookupIn_setFile_isSome _ _ _ _ hq

/-! ### `writeAll` lemmas -/

theorem writeAll_dirs (img : ImageData) :
    ∀ (l : List Nat) (fs : FS), (writeAll img fs l).dirs = fs.dirs := by
  intro l
  induction l with
  | nil => intro fs; rfl
  | cons s rest ih => intro fs; simp [writeAll, ih]

theorem writeAll_unwritable (img : ImageData) :
    ∀ (l : List Nat) (fs : FS), (writeAll img fs l).unwritable = fs.unwritable := by
  intro l
  induction l with
  | nil => intro fs; rfl
  | cons s rest ih => intro fs; simp [writeAll, ih]

theorem writeAll_full (img : ImageData) :
    ∀ (l : List Nat) (fs : FS), (writeAll img fs l).full = fs.full := by
  intro l
  induction l with
  | nil => intro fs; rfl
  | cons s rest ih => intro fs; simp [writeAll, ih]

theorem writeAll_lookup_ne (img : ImageData) :
    ∀ (l : List Nat) (fs : FS) (p : String), (∀ s ∈ l, p ≠ iconPath s) →
      lookupIn (writeAll img fs l).files p = lookupIn fs.files p := by
  intro l
  induction l with
  | nil => intro fs p _; rfl
  | cons s rest ih =>
    intro fs p h
    rw [writeAll, ih _ _ (fun t ht => h t (List.mem_cons_of_mem s ht))]
    exact lookupIn_setFile_ne _ _ _ _ (h s (List.mem_cons_self s rest))

theorem writeAll_lookup_mem (img : ImageData) :
    ∀ (l : List Nat) (fs : FS) (s : Nat),
      l.Pairwise (fun a b => iconPath a ≠ iconPath b) → s ∈ l →
      lookupIn (writeAll img fs l).files (iconPath s) =
        some (.image (extFormat (iconPath s)) (img.resize s s)) := by
  intro l
  induction l with
  | nil => intro fs s _ hs; cases hs
  | cons a rest ih =>
    intro fs s hpw hs
    have hpw' := List.pairwise_cons.mp hpw
    rcases List.mem_cons.mp hs with heq | hmem
    · subst heq
      rw [writeAll, writeAll_lookup_ne img rest _ _ (fun t ht => hpw'.1 t ht)]
      exact lookupIn_setFile_self _ _ _
    · exact ih _ s hpw'.2 hmem

theorem writeAll_of_all_set (img : ImageData) :
    ∀ (l : List Nat) (fs : FS),
      (∀ s ∈ l, lookupIn fs.files (iconPath s) =
        some (.image (extFormat (iconPath s)) (img.resize s s))) →
      writeAll img fs l = fs := by
  intro l
  induction l with
  | nil => intro fs _; rfl
  | cons s rest ih =>
    intro fs h
    rw [writeAll, setFile_of_lookupIn _ _ _ (h s (List.mem_cons_self s rest))]
    exact ih _ (fun t ht => h t (List.mem_cons_of_mem s ht))

/-! ### Loop lemmas -/

theorem pilSave_err_perm (fs : FS) (img : ImageData) (p : String)
    (hd : dirOf p ∈ fs.dirs) (hw : p ∈ fs.unwritable) :
    pilSave fs img p = .error (.permissionError p) := by
  simp [pilSave, hd, hw]

theorem pilSave_err_full (fs : FS) (img : ImageData) (p : String)
    (hd : dirOf p ∈ fs.dirs) (hw : p ∉ fs.unwritable) (hf : fs.full = true) :
    pilSave fs img p = .error (.diskFull p) := by
  simp [pilSave, hd, hw, hf]

theorem processSize_err (img : ImageData) (w : World) (s : Nat) (e : PyError)
    (h : pilSave w.fs (img.resize s s) (iconPath s) = .error e) :
    processSize img w s =
      .error (e, { w with events := w.events ++ [Event.resized s] }) := by
  simp only [processSize]
  rw [h]

theorem processSizes_ok (img : ImageData) :
    ∀ (l : List Nat) (w : World),
      (∀ s ∈ l, dirOf (iconPath s) ∈ w.fs.dirs ∧ iconPath s ∉ w.fs.unwritable) →
      w.fs.full = false →
      processSizes img w l =
        .ok { fs := writeAll img w.fs l,
              output := w.output ++ l.map successMsg,
              events := w.events ++ successTrace l,
              openHandles := w.openHandles } := by
  intro l
  induction l with
  | nil =>
    intro w _ _
    simp [processSizes, writeAll, successTrace]
  | cons s rest ih =>
    intro w h hf
    have hs := h s (List.mem_cons_self s rest)
    have hsave := pilSave_ok w.fs (img.resize s s) (iconPath s) hs.1 hs.2 hf
    have hstep : processSizes img w (s :: rest) =
        processSizes img
          { w with fs := { w.fs with files := setFile w.fs.files (iconPath s) (FileData.image (extFormat (iconPath s)) (img.resize s s)) }, output := w.output ++ [successMsg s], events := w.events ++ [Event.resized s, Event.saved s, Event.printed s] }
          rest := by
      simp only [processSizes, processSize, hsave]
    rw [hstep]
    exact (ih { w with fs := { w.fs with files := setFile w.fs.files (iconPath s) (FileData.image (extFormat (iconPath s)) (img.resize s s)) }, output := w.output ++ [successMsg s], events := w.events ++ [Event.resized s, Event.saved s, Event.printed s] } (fun t ht => h t (List.mem_cons_of_mem s ht)) hf).trans (by simp [writeAll, successTrace, List.append_assoc])

theorem processSizes_append (img : ImageData) (l1 l2 : List Nat) :
    ∀ (w : World),
      processSizes img w (l1 ++ l2) =
        match processSizes img w l1 with
        | .ok w' => processSizes img w' l2
        | .error e => .error e := by
  induction l1 with
  | nil => intro w; simp [processSizes]
  | cons s rest ih =>
    intro w
    simp only [List.cons_append, processSizes]
    cases processSize img w s with
    | error e => rfl
    | ok w' => exact ih w'

theorem processSizes_result_inv (img : ImageData) :
    ∀ (l : List Nat) (w : World),
      (resultWorld (processSizes img w l)).fs.dirs = w.fs.dirs ∧
      (resultWorld (processSizes img w l)).openHandles = w.openHandles ∧
      ∀ q, (lookupIn w.fs.files q).isSome →
        (lookupIn (resultWorld (processSizes img w l)).fs.files q).isSome := by
  intro l
  induction l with
  | nil => exact fun w => ⟨rfl, rfl, fun q h => h⟩
  | cons s rest ih =>
    intro w
    simp only [processSizes, processSize]
    cases hsave : pilSave w.fs (img.resize s s) (iconPath s) with
    | error e => exact ⟨rfl, rfl, fun q h => h⟩
    | ok fs' =>
      obtain ⟨hd, hu, hf, hl⟩ := pilSave_ok_inv _ _ _ _ hsave
      have hih := ih { w with
        fs := fs',
        output := w.output ++ [successMsg s],
        events := w.events ++ [Event.resized s, Event.saved s, Event.printed s] }
      refine ⟨hih.1.trans hd, hih.2.1, fun q hq => hih.2.2 q (hl q hq)⟩

/-! ### `generate_icons` lemmas -/

/-- Parent directory and extension of every icon path in the fixed list. -/
theorem iconPath_facts : ∀ s ∈ sizes,
    dirOf (iconPath s) = output_dir ∧ extFormat (iconPath s) = ImgFormat.png := by
  decide

/-- The eight icon paths are pairwise distinct. -/
theorem iconPath_pairwise :
    sizes.Pairwise (fun a b => iconPath a ≠ iconPath b) := by
  decide

theorem generate_icons_missing (w : World) (path : String)
    (h : w.fs.lookup path = none) :
    generate_icons path w = .ok { w with output := w.output ++ [errorMsg path] } := by
  simp [generate_icons, pilOpen, h]

theorem generate_icons_corrupt (w : World) (path : String) (b : List Nat)
    (h : w.fs.lookup path = some (.corrupt b)) :
    generate_icons path w = .error (.codecError path, w) := by
  simp [generate_icons, pilOpen, h]

theorem generate_icons_ok_spec (w : World) (path : String) (fmt : ImgFormat)
    (img : ImageData)
    (hopen : pilOpen w.fs path = .ok (fmt, img))
    (hdir : output_dir ∈ w.fs.dirs)
    (hunw : ∀ s ∈ sizes, iconPath s ∉ w.fs.unwritable)
    (hfull : w.fs.full = false) :
    generate_icons path w =
      .ok { fs := writeAll img w.fs sizes,
            output := w.output ++ sizes.map successMsg,
            events := w.events ++ successTrace sizes,
            openHandles := (w.openHandles ++ [path]).erase path } := by
  have hps := processSizes_ok img sizes
      { w with openHandles := w.openHandles ++ [path] }
      (fun s hs => ⟨(iconPath_facts s hs).1 ▸ hdir, hunw s hs⟩) hfull
  simp only [generate_icons, hopen, hps]

theorem generate_icons_err_of_loop (w : World) (path : String) (fmt : ImgFormat)
    (img : ImageData) (e : PyError) (w1 : World)
    (hopen : pilOpen w.fs path = .ok (fmt, img))
    (hps : processSizes img { w with openHandles := w.openHandles ++ [path] } sizes
             = .error (e, w1))
    (hnotfnf : ∀ p, e ≠ .fileNotFound p) :
    generate_icons path w =
      .error (e, { w1 with openHandles := w1.openHandles.erase path }) := by
  simp only [generate_icons, hopen, hps]
  cases e with
  | fileNotFound p => exact absurd rfl (hnotfnf p)
  | fileExists p => rfl
  | permissionError p => rfl
  | diskFull p => rfl
  | codecError p => rfl

/-- Whatever `generate_icons` does, the directory set is unchanged and no
file disappears. -/
theorem generate_icons_fs_inv (path : String) (w : World) :
    (resultWorld (generate_icons path w)).fs.dirs = w.fs.dirs ∧
      ∀ q, (lookupIn w.fs.files q).isSome →
        (lookupIn (resultWorld (generate_icons path w)).fs.files q).isSome := by
  simp only [generate_icons]
  cases hopen : pilOpen w.fs path with
  | error e =>
    dsimp only
    cases e with
    | fileNotFound p => exact ⟨rfl, fun q h => h⟩
    | fileExists p => exact ⟨rfl, fun q h => h⟩
    | permissionError p => exact ⟨rfl, fun q h => h⟩
    | diskFull p => exact ⟨rfl, fun q h => h⟩
    | codecError p => exact ⟨rfl, fun q h => h⟩
  | ok pr =>
    obtain ⟨fmt, img⟩ := pr
    dsimp only
    have hinv := processSizes_result_inv img sizes
      { w with openHandles := w.openHandles ++ [path] }
    cases hps : processSizes img { w with openHandles := w.openHandles ++ [path] } sizes with
    | ok w' =>
      rw [hps] at hinv
      dsimp only [resultWorld] at hinv ⊢
      exact ⟨hinv.1, fun q h => hinv.2.2 q h⟩
    | error ew =>
      obtain ⟨e, w1⟩ := ew
      rw [hps] at hinv
      dsimp only [resultWorld] at hinv
      cases e with
      | fileNotFound p => exact ⟨hinv.1, fun q h => hinv.2.2 q h⟩
      | fileExists p => exact ⟨hinv.1, fun q h => hinv.2.2 q h⟩
      | permissionError p => exact ⟨hinv.1, fun q h => hinv.2.2 q h⟩
      | diskFull p => exact ⟨hinv.1, fun q h => hinv.2.2 q h⟩
      | codecError p => exact ⟨hinv.1, fun q h => hinv.2.2 q h⟩

/-- Whatever `generate_icons` does, a handle it acquired is not held at the
end. -/
theorem generate_icons_handles_inv (path : String) (w : World)
    (hfresh : path ∉ w.openHandles) :
    (resultWorld (generate_icons path w)).openHandles = w.openHandles := by
  have herase : (w.openHandles ++ [path]).erase path = w.openHandles := by
    rw [List.erase_append_right _ hfresh, List.erase_cons_head, List.append_nil]
  simp only [generate_icons]
  cases hopen : pilOpen w.fs path with
  | error e =>
    dsimp only
    cases e with
    | fileNotFound p => rfl
    | fileExists p => rfl
    | permissionError p => rfl
    | diskFull p => rfl
    | codecError p => rfl
  | ok pr =>
    obtain ⟨fmt, img⟩ := pr
    dsimp only
    have hinv := processSizes_result_inv img sizes
      { w with openHandles := w.openHandles ++ [path] }
    cases hps : processSizes img { w with openHandles := w.openHandles ++ [path] } sizes with
    | ok w' =>
      rw [hps] at hinv
      dsimp only [resultWorld] at hinv ⊢
      rw [hinv.2.1]
      exact herase
    | error ew =>
      obtain ⟨e, w1⟩ := ew
      rw [hps] at hinv
      dsimp only [resultWorld] at hinv
      have h1 : w1.openHandles.erase path = w.openHandles := by
        rw [hinv.2.1]
        exact herase
      cases e with
      | fileNotFound p => exact h1
      | fileExists p => exact h1
      | permissionError p => exact h1
      | diskFull p => exact h1
      | codecError p => exact h1

/-- Running the loop where the first `pre` sizes save fine and the save of
size `k` raises: the `pre` files are on disk and the error surfaces with them
still there. -/
theorem processSizes_err_at (img : ImageData) (pre post : List Nat) (k : Nat)
    (w : World) (e : PyError)
    (hconds : ∀ s ∈ pre, dirOf (iconPath s) ∈ w.fs.dirs ∧ iconPath s ∉ w.fs.unwritable)
    (hfull : w.fs.full = false)
    (hk : pilSave (writeAll img w.fs pre) (img.resize k k) (iconPath k) = .error e) :
    processSizes img w (pre ++ k :: post) =
      .error (e, { fs := writeAll img w.fs pre,
                   output := w.output ++ pre.map successMsg,
                   events := (w.events ++ successTrace pre) ++ [Event.resized k],
                   openHandles := w.openHandles }) := by
  rw [processSizes_append, processSizes_ok img pre w hconds hfull]
  have hone := processSize_err img
    { fs := writeAll img w.fs pre,
      output := w.output ++ pre.map successMsg,
      events := w.events ++ successTrace pre,
      openHandles := w.openHandles } k e hk
  simp only [processSizes, hone]

/-- Failing at the very first size. -/
theorem processSizes_err_head (img : ImageData) (k : Nat) (rest : List Nat)
    (w : World) (e : PyError)
    (hk : pilSave w.fs (img.resize k k) (iconPath k) = .error e) :
    processSizes img w (k :: rest) =
      .error (e, { w with events := w.events ++ [Event.resized k] }) := by
  simp only [processSizes, processSize_err img w k e hk]

/-- Opening an image only looks at the file at `p`. -/
theorem pilOpen_congr (fs1 fs2 : FS) (p : String)
    (h : fs1.lookup p = fs2.lookup p) : pilOpen fs1 p = pilOpen fs2 p := by
  simp only [pilOpen, h]

theorem osPathExists_of_mem_dirs (fs : FS) (p : String) (h : p ∈ fs.dirs) :
    osPathExists fs p = true := by
  simp [osPathExists, h]

/-- A path that exists before `generate_icons` still exists afterwards,
whatever the run did. -/
theorem osPathExists_preserved (path : String) (w : World) (q : String)
    (h : osPathExists w.fs q = true) :
    osPathExists (resultWorld (generate_icons path w)).fs q = true := by
  obtain ⟨hd, hl⟩ := generate_icons_fs_inv path w
  simp only [osPathExists, Bool.or_eq_true] at h ⊢
  rcases h with hc | hs
  · exact Or.inl (by rw [hd]; exact hc)
  · exact Or.inr (hl q hs)

/-! ## The claims -/

/-- C1: for every size `s` in the fixed list `[72, 96, 128, 144, 152, 192,
384, 512]`, a successful run of `generate_icons` on a decodable source image
writes `icon-<s>x<s>.png` in the output directory with pixel dimensions
exactly `s × s`, for every source image regardless of its dimensions (the
source's width and height are unconstrained, so non-square sources are
covered; the resize forces `s × s` with no cropping or letterboxing). -/
theorem generate_icons_sizes_exact (w : World) (path : String) (fmt : ImgFormat)
    (img : ImageData)
    (hopen : pilOpen w.fs path = .ok (fmt, img))
    (hdir : output_dir ∈ w.fs.dirs)
    (hunw : ∀ s ∈ sizes, iconPath s ∉ w.fs.unwritable)
    (hfull : w.fs.full = false) :
    ∃ w', generate_icons path w = .ok w' ∧
      ∀ s ∈ sizes,
        w'.fs.lookup (iconPath s) = some (.image .png (img.resize s s)) ∧
        (img.resize s s).width = s ∧ (img.resize s s).height = s := by
  refine ⟨_, generate_icons_ok_spec w path fmt img hopen hdir hunw hfull, ?_⟩
  intro s hs
  have hlook := writeAll_lookup_mem img sizes w.fs s iconPath_pairwise hs
  rw [(iconPath_facts s hs).2] at hlook
  exact ⟨hlook, rfl, rfl⟩

theorem generate_icons_sizes_exact_witness :
    ∃ w', generate_icons source_file sampleWorld = .ok w' ∧
      ∀ s ∈ sizes,
        w'.fs.lookup (iconPath s) = some (.image .png (sampleImg.resize s s)) ∧
        (sampleImg.resize s s).width = s ∧ (sampleImg.resize s s).height = s :=
  generate_icons_sizes_exact sampleWorld source_file .jpeg sampleImg rfl
    (by decide) (by decide) rfl

/-- C2: when the source path resolves to no file, `generate_icons` returns
normally (no raised error), leaves the filesystem exactly as it was (zero
output files written), and prints exactly one diagnostic line, which names
the path. -/
theorem generate_icons_source_missing (w : World) (path : String)
    (h : w.fs.lookup path = none) :
    generate_icons path w = .ok { w with output := w.output ++ [errorMsg path] } ∧
      errorMsg path =
        "❌ Error: Could not find " ++ path ++ ". Check your folder names!" :=
  ⟨generate_icons_missing w path h, rfl⟩

theorem generate_icons_source_missing_witness :
    generate_icons source_file emptyWorld =
        .ok { emptyWorld with output := emptyWorld.output ++ [errorMsg source_file] } ∧
      errorMsg source_file =
        "❌ Error: Could not find " ++ source_file ++ ". Check your folder names!" :=
  generate_icons_source_missing emptyWorld source_file rfl

/-- C3: `FileNotFoundError` ("source not found") is the single error kind
`generate_icons` converts into a printed diagnostic and a normal return;
a corrupt-but-present image (codec error at open), an unwritable output
directory (permission error at save) and disk exhaustion (OS error at save)
all propagate out of the operation as unrecovered faults. -/
theorem generate_icons_error_taxonomy :
    (∀ w path, FS.lookup w.fs path = none →
      generate_icons path w = .ok { w with output := w.output ++ [errorMsg path] }) ∧
    (∀ w path b, FS.lookup w.fs path = some (.corrupt b) →
      generate_icons path w = .error (.codecError path, w)) ∧
    (∀ w path fmt img, pilOpen w.fs path = .ok (fmt, img) →
      output_dir ∈ w.fs.dirs → (∀ s ∈ sizes, iconPath s ∈ w.fs.unwritable) →
      ∃ w1, generate_icons path w = .error (.permissionError (iconPath 72), w1)) ∧
    (∀ w path fmt img, pilOpen w.fs path = .ok (fmt, img) →
      output_dir ∈ w.fs.dirs → (∀ s ∈ sizes, iconPath s ∉ w.fs.unwritable) →
      w.fs.full = true →
      ∃ w1, generate_icons path w = .error (.diskFull (iconPath 72), w1)) := by
  have h72 : (72 : Nat) ∈ sizes := by decide
  refine ⟨fun w path h => generate_icons_missing w path h,
    fun w path b h => generate_icons_corrupt w path b h, ?_, ?_⟩
  · intro w path fmt img hopen hdir hunw
    have hsave : pilSave w.fs (img.resize 72 72) (iconPath 72) =
        .error (.permissionError (iconPath 72)) :=
      pilSave_err_perm _ _ _ ((iconPath_facts 72 h72).1 ▸ hdir) (hunw 72 h72)
    have hps := processSizes_err_head img 72 [96, 128, 144, 152, 192, 384, 512]
      { w with openHandles := w.openHandles ++ [path] }
      (.permissionError (iconPath 72)) hsave
    exact ⟨_, generate_icons_err_of_loop w path fmt img _ _ hopen hps
      (fun p h => PyError.noConfusion h)⟩
  · intro w path fmt img hopen hdir hunw hfull
    have hsave : pilSave w.fs (img.resize 72 72) (iconPath 72) =
        .error (.diskFull (iconPath 72)) :=
      pilSave_err_full _ _ _ ((iconPath_facts 72 h72).1 ▸ hdir) (hunw 72 h72) hfull
    have hps := processSizes_err_head img 72 [96, 128, 144, 152, 192, 384, 512]
      { w with openHandles := w.openHandles ++ [path] }
      (.diskFull (iconPath 72)) hsave
    exact ⟨_, generate_icons_err_of_loop w path fmt img _ _ hopen hps
      (fun p h => PyError.noConfusion h)⟩

theorem generate_icons_error_taxonomy_witness :
    (generate_icons source_file emptyWorld =
      .ok { emptyWorld with output := emptyWorld.output ++ [errorMsg source_file] }) ∧
    (generate_icons "c.png" corruptWorld = .error (.codecError "c.png", corruptWorld)) ∧
    (∃ w1, generate_icons source_file lockedWorld =
      .error (.permissionError (iconPath 72), w1)) ∧
    (∃ w1, generate_icons source_file fullWorld =
      .error (.diskFull (iconPath 72), w1)) :=
  ⟨generate_icons_error_taxonomy.1 emptyWorld source_file rfl,
   generate_icons_error_taxonomy.2.1 corruptWorld "c.png" [9] rfl,
   generate_icons_error_taxonomy.2.2.1 lockedWorld source_file .jpeg sampleImg rfl
     (by decide) (by decide),
   generate_icons_error_taxonomy.2.2.2 fullWorld source_file .jpeg sampleImg rfl
     (by decide) (by decide) rfl⟩

/-- C4: the run performs the directory-creation step first and it always
succeeds, the output directory exists once it has run (with the intermediate
directory also created when it was absent), the source image is opened only
afterwards (`mainProgram` is exactly `generate_icons` run on the
post-startup state), and the directory still exists after any run —
including runs where the source image was missing. -/
theorem mainProgram_creates_output_dir (w : World) :
    ∃ fs1, startup w.fs = .ok fs1 ∧
      osPathExists fs1 output_dir = true ∧
      mainProgram w = generate_icons source_file { w with fs := fs1 } ∧
      osPathExists (resultWorld (mainProgram w)).fs output_dir = true ∧
      (osPathExists w.fs output_dir = false →
        "public" ∈ fs1.dirs ∧ output_dir ∈ fs1.dirs) := by
  cases hex : osPathExists w.fs output_dir with
  | true =>
    have hst : startup w.fs = .ok w.fs := by simp [startup, hex]
    have hmain : mainProgram w = generate_icons source_file { w with fs := w.fs } := by
      simp only [mainProgram, hst]
    refine ⟨w.fs, hst, hex, hmain, ?_, fun hcontra => absurd hcontra (by decide)⟩
    rw [hmain]
    exact osPathExists_preserved source_file { w with fs := w.fs } output_dir hex
  | false =>
    have hc : w.fs.dirs.contains output_dir = false := by
      simp only [osPathExists, Bool.or_eq_false_iff] at hex
      exact hex.1
    have hmem2 : output_dir ∈
        (pathAncestors output_dir).filter (fun d => !w.fs.dirs.contains d) := by
      rw [List.mem_filter]
      exact ⟨by decide, by simpa using hc⟩
    have hmem1 : ("public" : String) ∈
        (pathAncestors output_dir).filter (fun d => !w.fs.dirs.contains d) ∨
        ("public" : String) ∈ w.fs.dirs := by
      cases hp : w.fs.dirs.contains "public" with
      | true => exact Or.inr (by simpa using hp)
      | false =>
        refine Or.inl ?_
        rw [List.mem_filter]
        exact ⟨by decide, by simpa using hp⟩
    set fs1 : FS := { w.fs with
      dirs := w.fs.dirs ++ (pathAncestors output_dir).filter
        (fun d => !w.fs.dirs.contains d) } with hfs1
    have hst : startup w.fs = .ok fs1 := by
      simp [startup, os_makedirs, hex, hfs1]
    have hdmem : output_dir ∈ fs1.dirs := List.mem_append.mpr (Or.inr hmem2)
    have hpmem : ("public" : String) ∈ fs1.dirs := by
      rcases hmem1 with h | h
      · exact List.mem_append.mpr (Or.inr h)
      · exact List.mem_append.mpr (Or.inl h)
    have hexists : osPathExists fs1 output_dir = true :=
      osPathExists_of_mem_dirs fs1 output_dir hdmem
    have hmain : mainProgram w = generate_icons source_file { w with fs := fs1 } := by
      simp only [mainProgram, hst]
    refine ⟨fs1, hst, hexists, hmain, ?_, fun _ => ⟨hpmem, hdmem⟩⟩
    rw [hmain]
    exact osPathExists_preserved source_file { w with fs := fs1 } output_dir hexists

theorem mainProgram_creates_output_dir_witness :
    ∃ fs1, startup emptyWorld.fs = .ok fs1 ∧
      osPathExists fs1 output_dir = true ∧
      mainProgram emptyWorld = generate_icons source_file { emptyWorld with fs := fs1 } ∧
      osPathExists (resultWorld (mainProgram emptyWorld)).fs output_dir = true ∧
      (osPathExists emptyWorld.fs output_dir = false →
        "public" ∈ fs1.dirs ∧ output_dir ∈ fs1.dirs) :=
  mainProgram_creates_output_dir emptyWorld

/-- C5: running `generate_icons` twice against the same valid source is
idempotent — the second run succeeds (overwriting the first run's files
without error) and leaves the filesystem byte-for-byte identical to the
state after the first run. -/
theorem generate_icons_idempotent (w : World) (path : String) (fmt : ImgFormat)
    (img : ImageData)
    (hopen : pilOpen w.fs path = .ok (fmt, img))
    (hdir : output_dir ∈ w.fs.dirs)
    (hunw : ∀ s ∈ sizes, iconPath s ∉ w.fs.unwritable)
    (hfull : w.fs.full = false)
    (hsrc : ∀ s ∈ sizes, path ≠ iconPath s) :
    ∃ w1 w2, generate_icons path w = .ok w1 ∧ generate_icons path w1 = .ok w2 ∧
      w2.fs = w1.fs := by
  have h1 := generate_icons_ok_spec w path fmt img hopen hdir hunw hfull
  set W1 : World := { fs := writeAll img w.fs sizes,
                      output := w.output ++ sizes.map successMsg,
                      events := w.events ++ successTrace sizes,
                      openHandles := (w.openHandles ++ [path]).erase path } with hW1
  have hopen2 : pilOpen W1.fs path = .ok (fmt, img) := by
    rw [pilOpen_congr W1.fs w.fs path (writeAll_lookup_ne img sizes w.fs path hsrc)]
    exact hopen
  have hdir2 : output_dir ∈ W1.fs.dirs := by
    rw [hW1]
    exact (writeAll_dirs img sizes w.fs).symm ▸ hdir
  have hunw2 : ∀ s ∈ sizes, iconPath s ∉ W1.fs.unwritable := by
    intro s hs
    rw [hW1]
    exact (writeAll_unwritable img sizes w.fs).symm ▸ hunw s hs
  have hfull2 : W1.fs.full = false := by
    rw [hW1]
    exact (writeAll_full img sizes w.fs).symm ▸ hfull
  have h2 := generate_icons_ok_spec W1 path fmt img hopen2 hdir2 hunw2 hfull2
  refine ⟨W1, _, h1, h2, ?_⟩
  show writeAll img W1.fs sizes = W1.fs
  exact writeAll_of_all_set img sizes W1.fs
    (fun s hs => writeAll_lookup_mem img sizes w.fs s iconPath_pairwise hs)

theorem generate_icons_idempotent_witness :
    ∃ w1 w2, generate_icons source_file sampleWorld = .ok w1 ∧
      generate_icons source_file w1 = .ok w2 ∧ w2.fs = w1.fs :=
  generate_icons_idempotent sampleWorld source_file .jpeg sampleImg rfl
    (by decide) (by decide) rfl (by decide)

/-- C6: the source-image handle acquired by `generate_icons` is released on
every exit path — after the loop completes and also when an exception is
raised from the per-size processing — so the set of held handles at the end
equals the set held at entry, whatever the outcome. -/
theorem generate_icons_releases_resource (w : World) (path : String)
    (hfresh : path ∉ w.openHandles) :
    (resultWorld (generate_icons path w)).openHandles = w.openHandles :=
  generate_icons_handles_inv path w hfresh

theorem generate_icons_releases_resource_witness :
    (resultWorld (generate_icons source_file sampleWorld)).openHandles =
        sampleWorld.openHandles ∧
      (resultWorld (generate_icons source_file lockedWorld)).openHandles =
        lockedWorld.openHandles :=
  ⟨generate_icons_releases_resource sampleWorld source_file (by decide),
   generate_icons_releases_resource lockedWorld source_file (by decide)⟩

/-- C7: whatever format the decoding library reports for the source (JPEG,
bitmap, ...), every output file a successful run writes is encoded as
PNG. -/
theorem generate_icons_outputs_png (w : World) (path : String) (fmt : ImgFormat)
    (img : ImageData)
    (hopen : pilOpen w.fs path = .ok (fmt, img))
    (hdir : output_dir ∈ w.fs.dirs)
    (hunw : ∀ s ∈ sizes, iconPath s ∉ w.fs.unwritable)
    (hfull : w.fs.full = false) :
    ∃ w', generate_icons path w = .ok w' ∧
      ∀ s ∈ sizes, ∃ dat,
        w'.fs.lookup (iconPath s) = some (.image ImgFormat.png dat) := by
  refine ⟨_, generate_icons_ok_spec w path fmt img hopen hdir hunw hfull,
    fun s hs => ⟨img.resize s s, ?_⟩⟩
  have hlook := writeAll_lookup_mem img sizes w.fs s iconPath_pairwise hs
  rw [(iconPath_facts s hs).2] at hlook
  exact hlook

theorem generate_icons_outputs_png_witness :
    ∃ w', generate_icons source_file bmpWorld = .ok w' ∧
      ∀ s ∈ sizes, ∃ dat,
        w'.fs.lookup (iconPath s) = some (.image ImgFormat.png dat) :=
  generate_icons_outputs_png bmpWorld source_file .bmp sampleImg rfl
    (by decide) (by decide) rfl

/-- C8: a successful run processes the sizes strictly in the order of the
fixed list, one at a time: the recorded trace is, for each size in list
order, its resize, then its file write, then its success notice — so each
size's write completes before the next size's resize begins, and each
notice is emitted only after that size's file is written.  The printed
lines likewise appear in list order. -/
theorem generate_icons_in_order (w : World) (path : String) (fmt : ImgFormat)
    (img : ImageData)
    (hopen : pilOpen w.fs path = .ok (fmt, img))
    (hdir : output_dir ∈ w.fs.dirs)
    (hunw : ∀ s ∈ sizes, iconPath s ∉ w.fs.unwritable)
    (hfull : w.fs.full = false) :
    ∃ w', generate_icons path w = .ok w' ∧
      w'.events = w.events ++ successTrace sizes ∧
      w'.output = w.output ++ sizes.map successMsg ∧
      successTrace sizes =
        [.resized 72, .saved 72, .printed 72,
         .resized 96, .saved 96, .printed 96,
         .resized 128, .saved 128, .printed 128,
         .resized 144, .saved 144, .printed 144,
         .resized 152, .saved 152, .printed 152,
         .resized 192, .saved 192, .printed 192,
         .resized 384, .saved 384, .printed 384,
         .resized 512, .saved 512, .printed 512] :=
  ⟨_, generate_icons_ok_spec w path fmt img hopen hdir hunw hfull, rfl, rfl, rfl⟩

theorem generate_icons_in_order_witness :
    ∃ w', generate_icons source_file sampleWorld = .ok w' ∧
      w'.events = sampleWorld.events ++ successTrace sizes ∧
      w'.output = sampleWorld.output ++ sizes.map successMsg ∧
      successTrace sizes =
        [.resized 72, .saved 72, .printed 72,
         .resized 96, .saved 96, .printed 96,
         .resized 128, .saved 128, .printed 128,
         .resized 144, .saved 144, .printed 144,
         .resized 152, .saved 152, .printed 152,
         .resized 192, .saved 192, .printed 192,
         .resized 384, .saved 384, .printed 384,
         .resized 512, .saved 512, .printed 512] :=
  generate_icons_in_order sampleWorld source_file .jpeg sampleImg rfl
    (by decide) (by decide) rfl

/-- C9: `generate_icons` is not atomic: when the save for size `k` raises
(here: the OS refuses that write), the error propagates out of the
operation while the files for every size before `k` remain on disk, and the
success notices for those earlier sizes were printed — no rollback or
cleanup happens on the error path. -/
theorem generate_icons_no_rollback (w : World) (path : String) (fmt : ImgFormat)
    (img : ImageData) (pre post : List Nat) (k : Nat)
    (hopen : pilOpen w.fs path = .ok (fmt, img))
    (hdir : output_dir ∈ w.fs.dirs)
    (hfull : w.fs.full = false)
    (hsplit : sizes = pre ++ k :: post)
    (hpre : ∀ s ∈ pre, iconPath s ∉ w.fs.unwritable)
    (hk : iconPath k ∈ w.fs.unwritable) :
    ∃ w1, generate_icons path w = .error (.permissionError (iconPath k), w1) ∧
      (∀ s ∈ pre, w1.fs.lookup (iconPath s) = some (.image .png (img.resize s s))) ∧
      w1.output = w.output ++ pre.map successMsg := by
  have hsub : pre.Sublist sizes := hsplit ▸ List.sublist_append_left pre (k :: post)
  have hkmem : k ∈ sizes := by
    rw [hsplit]
    exact List.mem_append_right pre (List.mem_cons_self k post)
  have hconds : ∀ s ∈ pre,
      dirOf (iconPath s) ∈ w.fs.dirs ∧ iconPath s ∉ w.fs.unwritable :=
    fun s hs => ⟨(iconPath_facts s (hsub.subset hs)).1 ▸ hdir, hpre s hs⟩
  have hksave : pilSave (writeAll img w.fs pre) (img.resize k k) (iconPath k) =
      .error (.permissionError (iconPath k)) := by
    refine pilSave_err_perm _ _ _ ?_ ?_
    · rw [writeAll_dirs]
      exact (iconPath_facts k hkmem).1 ▸ hdir
    · rw [writeAll_unwritable]
      exact hk
  have hps := processSizes_err_at img pre post k
    { w with openHandles := w.openHandles ++ [path] }
    (.permissionError (iconPath k)) hconds hfull hksave
  rw [← hsplit] at hps
  refine ⟨_, generate_icons_err_of_loop w path fmt img _ _ hopen hps
    (fun p h => PyError.noConfusion h), ?_, rfl⟩
  intro s hs
  have hlook := writeAll_lookup_mem img pre w.fs s
    (List.Pairwise.sublist hsub iconPath_pairwise) hs
  rw [(iconPath_facts s (hsub.subset hs)).2] at hlook
  exact hlook

theorem generate_icons_no_rollback_witness :
    ∃ w1, generate_icons source_file midFailWorld =
        .error (.permissionError (iconPath 128), w1) ∧
      (∀ s ∈ [72, 96],
        w1.fs.lookup (iconPath s) = some (.image .png (sampleImg.resize s s))) ∧
      w1.output = midFailWorld.output ++ [72, 96].map successMsg :=
  generate_icons_no_rollback midFailWorld source_file .jpeg sampleImg
    [72, 96] [144, 152, 192, 384, 512] 128 rfl (by decide) rfl rfl
    (by decide) (by decide)

/-- C10: the startup directory-creation step never fails because the output
path already exists: creation is guarded by an existence check, so when the
output path exists (as a directory or as a file) the creation call is
skipped entirely and the state is untouched; startup always returns
normally; and the unguarded creation call would indeed raise on an existing
path. -/
theorem startup_guarded_creation (fs : FS) :
    (osPathExists fs output_dir = true → startup fs = .ok fs) ∧
    (∃ fs', startup fs = .ok fs') ∧
    (osPathExists fs output_dir = true →
      os_makedirs fs output_dir = .error (.fileExists output_dir)) := by
  refine ⟨fun h => by simp [startup, h], ?_, fun h => by simp [os_makedirs, h]⟩
  cases hex : osPathExists fs output_dir with
  | true => exact ⟨fs, by simp [startup, hex]⟩
  | false =>
    exact ⟨{ fs with dirs := fs.dirs ++ (pathAncestors output_dir).filter (fun d => !fs.dirs.contains d) }, by simp [startup, os_makedirs, hex]⟩

theorem startup_guarded_creation_witness :
    (startup readyFS = .ok readyFS) ∧
    (∃ fs', startup emptyFS = .ok fs') ∧
    (os_makedirs readyFS output_dir = .error (.fileExists output_dir)) :=
  ⟨(startup_guarded_creation readyFS).1 (by decide),
   (startup_guarded_creation emptyFS).2.1,
   (startup_guarded_creation readyFS).2.2 (by decide)⟩

end Audify
